import Mathlib

/-!
Verification development for the markdown prompt editor's version-history
core: the versioning hook (src/src/hooks/useVersioning.ts), the
localforage-backed storage service (VersionStorageService), and the
validation rules stated by the repository's requirements document.

Embedding conventions:
* ISO timestamp strings are modelled as natural numbers (the epoch
  milliseconds that new Date(iso).getTime() yields); comparisons of
  timestamps in the source go through getTime(), so the order is the same.
* JavaScript records used as dictionaries (acc[key] = value) are modelled
  as association lists with insertion-order preserved and in-place
  overwrite on an existing key, matching property ordering for the
  non-integer-like string keys the code generates.
* React state updates (setDocumentState / setError) are modelled by pure
  functions returning the next state; the storage promise outcome is an
  explicit boolean parameter (storageOk).
* Nondeterministic inputs (generated ids, Date.now(), the default
  timestamp-derived name) are explicit parameters.
-/

/-- A version snapshot, from the Version interface of src (id, createdAt,
optional name, content, summary). createdAt is in epoch milliseconds. -/
structure Version where
  id : String
  createdAt : Nat
  name : Option String
  content : String
  summary : String
deriving Repr, DecidableEq

/-- The document aggregate, from the DocumentState interface of src:
current content, versions newest-first, updatedAt in epoch milliseconds. -/
structure DocumentState where
  id : String
  content : String
  versions : List Version
  updatedAt : Nat
deriving Repr, DecidableEq

/-- Characters the source's trim() and the regex \s treat as whitespace
(modelled with Lean's Char.isWhitespace: space, tab, CR, LF). -/
def jsTrim (s : String) : String :=
  String.mk (((s.data.dropWhile Char.isWhitespace).reverse.dropWhile Char.isWhitespace).reverse)

/-- Splitting a trimmed string on runs of whitespace, as content.trim().split
on the whitespace-run regex does in generateContentSummary: maximal runs of
non-whitespace characters, in order. -/
def splitWsRuns : List Char → List Char → List String
  | [], acc => if acc.isEmpty then [] else [String.mk acc.reverse]
  | c :: cs, acc =>
      if c.isWhitespace then
        if acc.isEmpty then splitWsRuns cs []
        else String.mk acc.reverse :: splitWsRuns cs []
      else splitWsRuns cs (c :: acc)

/-- generateContentSummary from useVersioning.ts: for blank content the
string "Empty prompt"; otherwise word count, character count and a preview of
the first ten words, with an ellipsis when there are more. -/
def generateContentSummary (content : String) : String :=
  if jsTrim content = "" then "Empty prompt"
  else
    let words := splitWsRuns (jsTrim content).data []
    let wordCount := words.length
    let charCount := content.length
    let preview := String.intercalate " " (words.take 10)
    let suffix := if words.length > 10 then "..." else ""
    s!"{wordCount} words, {charCount} chars - {preview}{suffix}"

/-- The JavaScript expression (name || generateVersionName()): the default
name is used when name is undefined or the empty string (falsy). -/
def jsNameOrDefault (name : Option String) (defaultName : String) : String :=
  match name with
  | some n => if n = "" then defaultName else n
  | none => defaultName

/-- What one saveVersion call leaves behind: the next in-memory document
state, the Version the call returns, and the error banner it sets. -/
structure SaveOutcome where
  state : DocumentState
  returned : Version
  error : Option String
deriving Repr, DecidableEq

/-- saveVersion from useVersioning.ts (lines 21-48): builds the new Version
(fresh id, current time, name defaulted when absent, derived summary),
prepends it to versions, sets content and updatedAt, then persists; a
storage failure only sets the error message, the in-memory state stays. -/
def saveVersion (documentState : DocumentState) (content : String) (name : Option String)
    (freshId : String) (now : Nat) (defaultName : String) (storageOk : Bool) : SaveOutcome :=
  let newVersion : Version :=
    { id := freshId
      createdAt := now
      name := some (jsNameOrDefault name defaultName)
      content := content
      summary := generateContentSummary content }
  let updatedState : DocumentState :=
    { documentState with
      content := content
      versions := newVersion :: documentState.versions
      updatedAt := now }
  { state := updatedState
    returned := newVersion
    error := if storageOk then none else some "Failed to save version to storage" }

/-- What one loadVersion (restore) call leaves behind. -/
structure LoadOutcome where
  state : DocumentState
  returned : Option String
  error : Option String
deriving Repr, DecidableEq

/-- loadVersion from useVersioning.ts (lines 53-75): finds the version by
id; when found, copies its content into the document state, bumps updatedAt
and persists, returning the content; when absent, returns null and changes
nothing (the error banner keeps its previous value). -/
def loadVersion (documentState : DocumentState) (versionId : String) (now : Nat)
    (storageOk : Bool) (prevError : Option String) : LoadOutcome :=
  match documentState.versions.find? (fun v => v.id == versionId) with
  | some version =>
      { state := { documentState with content := version.content, updatedAt := now }
        returned := some version.content
        error := if storageOk then none else some "Failed to save current state to storage" }
  | none =>
      { state := documentState
        returned := none
        error := prevError }

/-- getLatestVersion from useVersioning.ts: versions[0] or null. -/
def getLatestVersion (documentState : DocumentState) : Option Version :=
  documentState.versions.head?

/-- hasUnsavedChanges from useVersioning.ts (lines 129-133): with no
versions, whether the content is non-empty; otherwise whether the newest
version's content differs from the current content. -/
def hasUnsavedChanges (documentState : DocumentState) : Bool :=
  match getLatestVersion documentState with
  | none => decide (0 < documentState.content.length)
  | some latestVersion => latestVersion.content != documentState.content

/-- A concrete document holding exactly twenty versions, all named, with
strictly decreasing creation times (newest first). -/
def sampleVersion (i : Nat) : Version :=
  { id := "ver_" ++ toString i
    createdAt := 1000 + i
    name := some ("Name " ++ toString i)
    content := "content " ++ toString i
    summary := "summary " ++ toString i }

def doc20 : DocumentState :=
  { id := "doc_1"
    content := "current"
    versions := (List.range 20).map (fun i => sampleVersion (20 - i))
    updatedAt := 2000 }

/-- As doc20, but the oldest of the twenty versions is unnamed. -/
def doc20oneUnnamed : DocumentState :=
  { id := "doc_2"
    content := "current"
    versions := (List.range 20).map (fun i =>
      if i == 19 then { sampleVersion (20 - i) with name := none }
      else sampleVersion (20 - i))
    updatedAt := 2000 }

theorem string_length_pos_iff (s : String) : 0 < s.length ↔ s ≠ "" := by
  cases s with
  | mk data =>
      cases data with
      | nil => simp [String.length]
      | cons c cs =>
          simp only [String.length, List.length_cons, Nat.succ_pos, true_iff]
          intro h
          have : (String.mk (c :: cs)).data = ("" : String).data := by rw [h]
          simp at this

/-- Claim C1: the spec says len(versions) stays at most 20 across saveVersion
calls. The code has no cap: from a state with 20 versions one saveVersion
call yields 21 versions, so the invariant fails on the code. -/
theorem saveVersion_exceeds_cap :
    doc20.versions.length = 20 ∧
    (saveVersion doc20 "new content" none "ver_new" 3000 "Version Oct 11" true).state.versions.length = 21 ∧
    ¬ ((saveVersion doc20 "new content" none "ver_new" 3000 "Version Oct 11" true).state.versions.length ≤ 20) := by
  decide

/-- Claim C2: the spec says saving with 20 versions all named fails with
AllVersionsNamedError and leaves versions unchanged. The code raises no such
error: on a state with 20 named versions the save succeeds, returns the new
version, reports no error and grows the list to 21. -/
theorem saveVersion_all_named_still_saves :
    doc20.versions.length = 20 ∧
    (∀ v ∈ doc20.versions, v.name.isSome = true) ∧
    (saveVersion doc20 "x" none "ver_21" 3000 "Version Oct 11" true).state.versions.length = 21 ∧
    (saveVersion doc20 "x" none "ver_21" 3000 "Version Oct 11" true).returned.id = "ver_21" ∧
    (saveVersion doc20 "x" none "ver_21" 3000 "Version Oct 11" true).error = none := by
  decide

/-- Claim C3: the spec says saving the 21st version with at least one
unnamed version evicts exactly the oldest unnamed one, leaving length 20.
The code evicts nothing: length becomes 21 and every previous version,
including the unnamed one, is still present. -/
theorem saveVersion_evicts_nothing :
    doc20oneUnnamed.versions.length = 20 ∧
    (∃ v ∈ doc20oneUnnamed.versions, v.name = none) ∧
    (saveVersion doc20oneUnnamed "x" none "ver_22" 3000 "Version Oct 11" true).state.versions.length = 21 ∧
    (∀ v ∈ doc20oneUnnamed.versions,
      v ∈ (saveVersion doc20oneUnnamed "x" none "ver_22" 3000 "Version Oct 11" true).state.versions) := by
  decide

/-- Claim C4: the spec says the summary is content's first characters (so for
the scenario saveVersion on "# Hello" the summary is exactly "# Hello").
The code's generateContentSummary instead produces a word/character count
with a ten-word preview: the saved version's summary on the empty-document
scenario is "2 words, 7 chars - # Hello", not "# Hello", though the rest of
the scenario (one version, not dirty afterwards) does hold. -/
theorem generateContentSummary_not_first_chars :
    generateContentSummary "# Hello" = "2 words, 7 chars - # Hello" ∧
    generateContentSummary "# Hello" ≠ "# Hello" ∧
    (saveVersion ⟨"doc_e", "", [], 0⟩ "# Hello" none "ver_1" 10 "Version Oct 11" true).state.versions.length = 1 ∧
    (saveVersion ⟨"doc_e", "", [], 0⟩ "# Hello" none "ver_1" 10 "Version Oct 11" true).returned.summary ≠ "# Hello" ∧
    hasUnsavedChanges (saveVersion ⟨"doc_e", "", [], 0⟩ "# Hello" none "ver_1" 10 "Version Oct 11" true).state = false := by
  decide

/-- Claim C5: hasUnsavedChanges (the dirty check) is true exactly when the
newest entry of versions (its head, versions being newest-first) has content
different from the current content, or versions is empty and the current
content is non-empty. -/
theorem hasUnsavedChanges_iff (s : DocumentState) :
    hasUnsavedChanges s = true ↔
      ((∃ newest, s.versions.head? = some newest ∧ s.content ≠ newest.content) ∨
       (s.versions = [] ∧ s.content ≠ "")) := by
  cases hv : s.versions with
  | nil =>
      simp [hasUnsavedChanges, getLatestVersion, hv, string_length_pos_iff]
  | cons v t =>
      simp [hasUnsavedChanges, getLatestVersion, hv, bne_iff_ne]
      exact ne_comm

/-- Claim C6: restoring a version that is present sets the document content
to exactly that version's stored content, bumps updatedAt to the present
time, returns that content, and leaves the versions list (and document id)
unchanged: nothing is created and nothing is removed from history. -/
theorem loadVersion_restores (s : DocumentState) (versionId : String) (now : Nat)
    (storageOk : Bool) (prevError : Option String) (v : Version)
    (hfind : s.versions.find? (fun w => w.id == versionId) = some v) :
    (loadVersion s versionId now storageOk prevError).state.content = v.content ∧
    (loadVersion s versionId now storageOk prevError).state.updatedAt = now ∧
    (loadVersion s versionId now storageOk prevError).state.versions = s.versions ∧
    (loadVersion s versionId now storageOk prevError).state.id = s.id ∧
    (loadVersion s versionId now storageOk prevError).returned = some v.content := by
  simp [loadVersion, hfind]

/-- Witness for C6 at a concrete two-version document: restoring version v2
copies its content, keeps both versions and bumps updatedAt. -/
theorem loadVersion_restores_witness :
    (loadVersion ⟨"doc_w", "live text",
        [⟨"v1", 500, some "newest", "new text", "s1"⟩,
         ⟨"v2", 400, some "older", "old text", "s2"⟩], 600⟩
        "v2" 700 true none).state.content = "old text" ∧
    (loadVersion ⟨"doc_w", "live text",
        [⟨"v1", 500, some "newest", "new text", "s1"⟩,
         ⟨"v2", 400, some "older", "old text", "s2"⟩], 600⟩
        "v2" 700 true none).state.updatedAt = 700 ∧
    (loadVersion ⟨"doc_w", "live text",
        [⟨"v1", 500, some "newest", "new text", "s1"⟩,
         ⟨"v2", 400, some "older", "old text", "s2"⟩], 600⟩
        "v2" 700 true none).state.versions =
      [⟨"v1", 500, some "newest", "new text", "s1"⟩,
       ⟨"v2", 400, some "older", "old text", "s2"⟩] ∧
    (loadVersion ⟨"doc_w", "live text",
        [⟨"v1", 500, some "newest", "new text", "s1"⟩,
         ⟨"v2", 400, some "older", "old text", "s2"⟩], 600⟩
        "v2" 700 true none).state.id = "doc_w" ∧
    (loadVersion ⟨"doc_w", "live text",
        [⟨"v1", 500, some "newest", "new text", "s1"⟩,
         ⟨"v2", 400, some "older", "old text", "s2"⟩], 600⟩
        "v2" 700 true none).returned = some "old text" :=
  loadVersion_restores
    ⟨"doc_w", "live text",
      [⟨"v1", 500, some "newest", "new text", "s1"⟩,
       ⟨"v2", 400, some "older", "old text", "s2"⟩], 600⟩
    "v2" 700 true none ⟨"v2", 400, some "older", "old text", "s2"⟩ (by decide)

/-- Claim C8: when the storage write fails during saveVersion, the call
still returns the newly created version, that version sits at the head of
the in-memory list with the saved content, the previous versions are all
retained (no rollback), and the error banner reports the failure. -/
theorem saveVersion_storage_failure_keeps_state (s : DocumentState) (c : String)
    (n : Option String) (freshId : String) (now : Nat) (defaultName : String) :
    (saveVersion s c n freshId now defaultName false).state.versions.head? =
      some (saveVersion s c n freshId now defaultName false).returned ∧
    (saveVersion s c n freshId now defaultName false).returned.content = c ∧
    (saveVersion s c n freshId now defaultName false).state.content = c ∧
    (saveVersion s c n freshId now defaultName false).state.versions.tail = s.versions ∧
    (saveVersion s c n freshId now defaultName false).error =
      some "Failed to save version to storage" := by
  simp [saveVersion]

/-- The V2_PERSISTENCE flag from src/src/config/features.ts, which gates
every storage operation of VersionStorageService. -/
def V2_PERSISTENCE : Bool := true

/-- A version record as VersionStorageService.saveDocument stores it:
the spread of the Version plus the owning document's id. -/
structure StoredVersion where
  id : String
  createdAt : Nat
  name : Option String
  content : String
  summary : String
  documentId : String
deriving Repr, DecidableEq

def toStored (documentId : String) (v : Version) : StoredVersion :=
  { id := v.id
    createdAt := v.createdAt
    name := v.name
    content := v.content
    summary := v.summary
    documentId := documentId }

/-- The projection loadDocument applies to each stored record: id, name,
content, summary, createdAt (the documentId field is dropped). -/
def fromStored (v : StoredVersion) : Version :=
  { id := v.id
    createdAt := v.createdAt
    name := v.name
    content := v.content
    summary := v.summary }

/-- JavaScript record assignment acc[k] = v: overwrite in place when the key
exists, append otherwise (string keys keep insertion order). -/
def recordSet {α : Type} (m : List (String × α)) (k : String) (v : α) : List (String × α) :=
  if m.any (fun p => p.1 == k) then
    m.map (fun p => if p.1 == k then (k, v) else p)
  else m ++ [(k, v)]

/-- JavaScript record read obj[k]: the value at the key, if any. -/
def recordGet {α : Type} (m : List (String × α)) (k : String) : Option α :=
  (m.find? (fun p => p.1 == k)).map Prod.snd

/-- The value VersionStorageService.saveDocument writes under the single
'app-data' key: a one-entry documents record for this document, and a
versions record built by reducing over documentState.versions. -/
structure AppData where
  documents : List (String × DocumentState)
  versions : List (String × StoredVersion)
deriving Repr, DecidableEq

def buildAppData (documentState : DocumentState) : AppData :=
  { documents := [(documentState.id, documentState)]
    versions := documentState.versions.foldl
      (fun acc version => recordSet acc version.id (toStored documentState.id version)) [] }

/-- VersionStorageService.saveDocument (localforage variant, lines 269-292):
when persistence is enabled, replaces whatever was stored at 'app-data' with
the data of this one document; when disabled, writes nothing. The store is
the single 'app-data' entry, Option because it may be absent. -/
def saveDocument (store : Option AppData) (documentState : DocumentState) : Option AppData :=
  if V2_PERSISTENCE then some (buildAppData documentState) else store

/-- Stable insertion of a version into a list sorted by createdAt descending,
matching the comparator (a, b) => b.createdAt - a.createdAt under the
stable Array.sort: on a tie the earlier element stays first. -/
def insertVersionDesc (v : Version) : List Version → List Version
  | [] => [v]
  | w :: ws => if w.createdAt ≤ v.createdAt then v :: w :: ws else w :: insertVersionDesc v ws

def sortVersionsDesc (l : List Version) : List Version :=
  l.foldr insertVersionDesc []

/-- VersionStorageService.loadDocument (localforage variant, lines 297-341):
reads 'app-data', looks the document up by id, and rebuilds its versions
from the versions record, keeping those with this documentId, projecting
away documentId and sorting by createdAt, newest first. -/
def loadDocument (store : Option AppData) (documentId : String) : Option DocumentState :=
  if V2_PERSISTENCE then
    match store with
    | none => none
    | some data =>
        match recordGet data.documents documentId with
        | none => none
        | some document =>
            some { id := document.id
                   content := document.content
                   versions := sortVersionsDesc
                     (((data.versions.map Prod.snd).filter
                        (fun v => v.documentId == documentId)).map fromStored)
                   updatedAt := document.updatedAt }
  else none

theorem sortVersionsDesc_of_sorted (l : List Version)
    (h : l.Pairwise (fun a b => b.createdAt ≤ a.createdAt)) :
    sortVersionsDesc l = l := by
  induction l with
  | nil => rfl
  | cons v t ih =>
      rw [List.pairwise_cons] at h
      have hstep : sortVersionsDesc (v :: t) = insertVersionDesc v (sortVersionsDesc t) := rfl
      rw [hstep, ih h.2]
      cases t with
      | nil => rfl
      | cons w ws =>
          have hw : w.createdAt ≤ v.createdAt := h.1 w (List.mem_cons_self w ws)
          simp [insertVersionDesc, hw]

theorem foldl_recordSet_eq (documentId : String) (l : List Version) :
    ∀ (acc : List (String × StoredVersion)),
      (∀ v ∈ l, ∀ p ∈ acc, p.1 ≠ v.id) →
      (l.map Version.id).Nodup →
      l.foldl (fun acc version => recordSet acc version.id (toStored documentId version)) acc =
        acc ++ l.map (fun v => (v.id, toStored documentId v)) := by
  induction l with
  | nil => intro acc _ _; simp
  | cons v t ih =>
      intro acc hacc hnodup
      rw [List.map_cons, List.nodup_cons] at hnodup
      have hnotin : acc.any (fun p => p.1 == v.id) = false := by
        rw [List.any_eq_false]
        intro p hp
        simpa using hacc v (List.mem_cons_self v t) p hp
      have hset : recordSet acc v.id (toStored documentId v) =
          acc ++ [(v.id, toStored documentId v)] := by
        simp [recordSet, hnotin]
      rw [List.foldl_cons, hset,
        ih (acc ++ [(v.id, toStored documentId v)]) ?_ hnodup.2]
      · simp
      · intro w hw p hp
        rcases List.mem_append.mp hp with hpa | hpb
        · exact hacc w (List.mem_cons_of_mem v hw) p hpa
        · have hpe : p = (v.id, toStored documentId v) := by simpa using hpb
          rw [hpe]
          intro hcontra
          have hcontra' : v.id = w.id := hcontra
          exact hnodup.1 (by rw [hcontra']; exact List.mem_map_of_mem Version.id hw)

theorem saveDocument_loadDocument_roundTrip (store : Option AppData)
    (documentState : DocumentState)
    (hids : (documentState.versions.map Version.id).Nodup)
    (hsorted : documentState.versions.Pairwise (fun a b => b.createdAt ≤ a.createdAt)) :
    loadDocument (saveDocument store documentState) documentState.id = some documentState := by
  have hfold := foldl_recordSet_eq documentState.id documentState.versions []
    (by intro v _ p hp; cases hp) hids
  have hvers : (buildAppData documentState).versions =
      documentState.versions.map (fun v => (v.id, toStored documentState.id v)) := by
    simpa [buildAppData] using hfold
  have hsnd : (buildAppData documentState).versions.map Prod.snd =
      documentState.versions.map (toStored documentState.id) := by
    rw [hvers, List.map_map]
    rfl
  have hfilter : (documentState.versions.map (toStored documentState.id)).filter
      (fun v => v.documentId == documentState.id) =
      documentState.versions.map (toStored documentState.id) := by
    rw [List.filter_eq_self]
    intro a ha
    rcases List.mem_map.mp ha with ⟨v, _, rfl⟩
    simp [toStored]
  have hback : ((documentState.versions.map (toStored documentState.id)).map fromStored) =
      documentState.versions := by
    rw [List.map_map]
    have hcomp : (fromStored ∘ toStored documentState.id) = id := by
      funext v
      rfl
    rw [hcomp, List.map_id]
  have hget : recordGet (buildAppData documentState).documents documentState.id =
      some documentState := by
    simp [buildAppData, recordGet]
  simp only [saveDocument, loadDocument, V2_PERSISTENCE, if_true, hget, hsnd, hfilter, hback]
  rw [sortVersionsDesc_of_sorted _ hsorted]

theorem saveDocument_loadDocument_roundTrip_witness :
    loadDocument (saveDocument none doc20) doc20.id = some doc20 :=
  saveDocument_loadDocument_roundTrip none doc20 (by decide) (by decide)

theorem saveDocument_discards_other_documents (store : Option AppData)
    (otherId : String) (documentState : DocumentState) (h : otherId ≠ documentState.id) :
    saveDocument store documentState = some (buildAppData documentState) ∧
    (buildAppData documentState).documents = [(documentState.id, documentState)] ∧
    loadDocument (saveDocument store documentState) otherId = none := by
  refine ⟨rfl, rfl, ?_⟩
  have hget : recordGet (buildAppData documentState).documents otherId =
      (none : Option DocumentState) := by
    simp [buildAppData, recordGet, Ne.symm h]
  simp only [saveDocument, loadDocument, V2_PERSISTENCE, if_true, hget]

theorem saveDocument_discards_other_documents_witness :
    saveDocument (some (buildAppData ⟨"doc_A", "a", [], 1⟩)) ⟨"doc_B", "b", [], 2⟩ =
      some (buildAppData ⟨"doc_B", "b", [], 2⟩) ∧
    (buildAppData ⟨"doc_B", "b", [], 2⟩).documents =
      [("doc_B", ⟨"doc_B", "b", [], 2⟩)] ∧
    loadDocument (saveDocument (some (buildAppData ⟨"doc_A", "a", [], 1⟩))
      ⟨"doc_B", "b", [], 2⟩) "doc_A" = none :=
  saveDocument_discards_other_documents (some (buildAppData ⟨"doc_A", "a", [], 1⟩))
    "doc_A" ⟨"doc_B", "b", [], 2⟩ (by decide)

inductive RenameError where
  | invalidNameError
  | duplicateNameError
deriving Repr, DecidableEq

/-- Modelled from the spec: renameVersion is not implemented anywhere in the
repository's source; the requirements document demands it (rename a version,
1-40 chars, name unique among versions). Per spec 4.1: validates that the
trimmed new name has length 1-40 (InvalidNameError otherwise), then that no
other version of the document carries that name, case-sensitively
(DuplicateNameError), and only then updates the target version's name in
place; the error cases return no new state. A missing version id leaves the
versions unchanged (the spec's NotFoundError may be a no-op). -/
def renameVersion (documentState : DocumentState) (versionId : String)
    (newName : String) : Except RenameError DocumentState :=
  let trimmed := jsTrim newName
  if trimmed.length < 1 ∨ trimmed.length > 40 then
    Except.error RenameError.invalidNameError
  else if documentState.versions.any (fun v => v.id != versionId && v.name == some trimmed) then
    Except.error RenameError.duplicateNameError
  else
    Except.ok { documentState with
      versions := documentState.versions.map
        (fun v => if v.id == versionId then { v with name := some trimmed } else v) }

theorem renameVersion_validation (s : DocumentState) (versionId newName : String) :
    ((∃ s', renameVersion s versionId newName = Except.ok s') ↔
      (1 ≤ (jsTrim newName).length ∧ (jsTrim newName).length ≤ 40 ∧
        ∀ v ∈ s.versions, v.id ≠ versionId → v.name ≠ some (jsTrim newName))) ∧
    ((¬ (1 ≤ (jsTrim newName).length ∧ (jsTrim newName).length ≤ 40)) →
      renameVersion s versionId newName = Except.error RenameError.invalidNameError) ∧
    ((1 ≤ (jsTrim newName).length ∧ (jsTrim newName).length ≤ 40) →
      (∃ v ∈ s.versions, v.id ≠ versionId ∧ v.name = some (jsTrim newName)) →
      renameVersion s versionId newName = Except.error RenameError.duplicateNameError) := by
  by_cases hlen : (jsTrim newName).length < 1 ∨ (jsTrim newName).length > 40
  · have hrun : renameVersion s versionId newName =
        Except.error RenameError.invalidNameError := by
      simp only [renameVersion]
      rw [if_pos hlen]
    refine ⟨⟨fun hex => ?_, fun hok => absurd hlen (by omega)⟩,
            fun _ => hrun, fun h1 _ => absurd hlen (by omega)⟩
    · obtain ⟨s', hs'⟩ := hex
      rw [hrun] at hs'
      cases hs'
  · have h1 : 1 ≤ (jsTrim newName).length := by omega
    have h40 : (jsTrim newName).length ≤ 40 := by omega
    cases hany : s.versions.any
        (fun v => v.id != versionId && v.name == some (jsTrim newName)) with
    | true =>
        have hrun : renameVersion s versionId newName =
            Except.error RenameError.duplicateNameError := by
          simp only [renameVersion]
          rw [if_neg hlen, if_pos hany]
        rcases List.any_eq_true.mp hany with ⟨v, hv, hvp⟩
        rw [Bool.and_eq_true] at hvp
        have hvid : v.id ≠ versionId := by simpa using hvp.1
        have hvname : v.name = some (jsTrim newName) := by simpa using hvp.2
        refine ⟨⟨fun hex => ?_, fun hok => ?_⟩,
                fun hcon => absurd ⟨h1, h40⟩ hcon, fun _ _ => hrun⟩
        · obtain ⟨s', hs'⟩ := hex
          rw [hrun] at hs'
          cases hs'
        · exact absurd (hok.2.2 v hv hvid) (not_not.mpr hvname)
    | false =>
        have hrun : renameVersion s versionId newName =
            Except.ok { s with versions := (s.versions.map (fun v =>
              if v.id == versionId then { v with name := some (jsTrim newName) }
              else v)) } := by
          simp only [renameVersion]
          rw [if_neg hlen, if_neg (by simp [hany])]
        have hall : ∀ v ∈ s.versions, v.id ≠ versionId →
            v.name ≠ some (jsTrim newName) := by
          intro v hv hvid hname
          have hp : (v.id != versionId && v.name == some (jsTrim newName)) = true := by
            simp [hvid, hname]
          have hcontr : (s.versions.any
              (fun v => v.id != versionId && v.name == some (jsTrim newName))) = true :=
            List.any_eq_true.mpr ⟨v, hv, hp⟩
          rw [hany] at hcontr
          cases hcontr
        refine ⟨⟨fun _ => ⟨h1, h40, hall⟩, fun _ => ⟨_, hrun⟩⟩,
                fun hcon => absurd ⟨h1, h40⟩ hcon, fun _ hdup => ?_⟩
        obtain ⟨v, hv, hvid, hvname⟩ := hdup
        exact absurd (hall v hv hvid) (not_not.mpr hvname)
